import Mathlib

/-!
Shallow embedding of `modules/planning/reference_line/reference_line_provider.cc`
(class `ReferenceLineProvider` of the Apollo planning stack).

Modelling choices:
* Planar coordinates are exact rationals (`ℚ`); a 2-D point (`common::math::Vec2d`)
  is a pair `ℚ × ℚ`.
* The geometry collaborators are external to this translation unit
  (`common::util::DistanceXY`, `Vec2d::DistanceTo`, `RouteSegments::GetProjection`,
  `RouteSegments::IsOnSegment`, `RouteSegments::Id`, `PncMap`, the smoother).
  They are embedded at their interface boundary: planar distance is a function
  parameter `dist : Point → Point → ℚ`, and each `RouteSegments` value carries
  the results the collaborators would return for it (its on-segment flag, its
  id, its projection function, the raw reference line built from its waypoints
  and the outcome of the configured smoother on that raw line).
* `std::unordered_map<id, SegmentHistoryItem>` is embedded as an association
  list with unique keys; lookup, fresh insertion and in-place update mirror
  `find`, `operator[]`-insertion and iterator assignment.
* Global gflags read by the code (`FLAGS_reckless_change_lane`,
  `FLAGS_min_length_for_lane_change`, `FLAGS_prioritize_change_lane`,
  `FLAGS_enable_smooth_reference_line`, ...) are passed as explicit arguments.
-/

/-- A planar point, `common::math::Vec2d`: x and y coordinates. -/
abbrev Point : Type := ℚ × ℚ

/-- One entry of `segment_history_`: fields `min_l`, `last_point`,
`accumulate_s` exactly as assigned in `IsAllowChangeLane`. -/
structure SegmentHistoryItem where
  min_l : ℚ
  last_point : Point
  accumulate_s : ℚ
deriving DecidableEq, Repr

/-- The member `segment_history_`, a map keyed by segment id, embedded as an
association list whose keys are unique. -/
abbrev SegmentHistory : Type := List (Nat × SegmentHistoryItem)

/-- `segment_history_.find(id)`: the entry stored under `id`, if any. -/
def histFind : SegmentHistory → Nat → Option SegmentHistoryItem
  | [], _ => none
  | (k, v) :: t, id => if k = id then some v else histFind t id

/-- `segment_history_[id] = v` when `id` was absent: fresh insertion. -/
def histInsert (h : SegmentHistory) (id : Nat) (v : SegmentHistoryItem) :
    SegmentHistory :=
  (id, v) :: h

/-- Assignment through the iterator returned by `find`: replace the entry
stored under `id`, leaving every other entry untouched. -/
def histUpdate : SegmentHistory → Nat → SegmentHistoryItem → SegmentHistory
  | [], _, _ => []
  | (k, v) :: t, id, nv =>
      if k = id then (k, nv) :: t else (k, v) :: histUpdate t id nv

/-- A geometric path with a length and an arclength query
(`ReferenceLine::Length` and `ReferenceLine::GetReferencePoint`). -/
structure ReferenceLine where
  length : ℚ
  pointAt : ℚ → Point

/-- `hdmap::RouteSegments` as consumed by this translation unit, together
with the answers its external collaborators give for it: `IsOnSegment()`,
`Id()` (ids as naturals), `GetProjection(point)` returning `(s, l)` on
success, the raw `ReferenceLine` built by `CreatePathFromLaneSegments`,
and the result of the configured smoother on that raw line. -/
structure RouteSegments where
  id : Nat
  isOnSegment : Bool
  getProjection : Point → Option (ℚ × ℚ)
  rawLine : ReferenceLine
  smoothResult : Option ReferenceLine

/-- `kChangeLaneMinL = 0.25` from `IsAllowChangeLane`. -/
def kChangeLaneMinL : ℚ := 1/4

/-- `kChangeLaneMinLengthFactor = 0.6` from `IsAllowChangeLane`. -/
def kChangeLaneMinLengthFactor : ℚ := 3/5

/-- `ReferenceLineProvider::IsAllowChangeLane`, translated line by line.
`dist` is `common::util::DistanceXY`; `recklessChangeLane` is
`FLAGS_reckless_change_lane`; `minLengthForLaneChange` is
`FLAGS_min_length_for_lane_change`. Returns the boolean result paired with
the updated `segment_history_` member. -/
def isAllowChangeLane (dist : Point → Point → ℚ) (recklessChangeLane : Bool)
    (minLengthForLaneChange : ℚ) (point : Point)
    (route_segments : List RouteSegments) (hist : SegmentHistory) :
    Bool × SegmentHistory :=
  if recklessChangeLane then (true, hist)
  else if route_segments.length ≤ 1 then (false, hist)
  else
    match route_segments.find? (fun seg => seg.isOnSegment) with
    | none => (true, hist)
    | some forward_segment =>
      match forward_segment.getProjection point with
      | none => (false, hist)
      | some (_, l) =>
        match histFind hist forward_segment.id with
        | none =>
            (false, histInsert hist forward_segment.id
              ⟨|l|, point, 0⟩)
        | some entry =>
            let min_l := min entry.min_l |l|
            let d := dist entry.last_point point
            let accumulate_s := entry.accumulate_s + d
            (decide (min_l < kChangeLaneMinL ∧
               accumulate_s ≥
                 kChangeLaneMinLengthFactor * minLengthForLaneChange),
             histUpdate hist forward_segment.id ⟨min_l, point, accumulate_s⟩)

/-- `ReferenceLineProvider::UpdateRoutingResponse`. The two queries on the
external `pnc_map_` collaborator are its arguments: `accepted` is the result
of `pnc_map_->UpdateRoutingResponse(routing)` and `sameRouting` the result of
`pnc_map_->IsSameRouting()`. The provider state touched here is the pair
(`segment_history_`, `has_routing_`); the call returns the boolean result
with the new state. -/
def updateRoutingResponse (accepted sameRouting : Bool)
    (hist : SegmentHistory) (hasRouting : Bool) :
    Bool × SegmentHistory × Bool :=
  if ¬accepted then (false, hist, hasRouting)
  else if ¬sameRouting then (true, [], true)
  else (true, hist, true)

/-- The helper of `PrioritzeChangeLane`: walk the list, and on the first
element whose `IsOnSegment()` is false return it together with the remaining
list (the result of splicing it out); `none` when every element is on
segment. -/
def extractFirstOff : List RouteSegments →
    Option (RouteSegments × List RouteSegments)
  | [] => none
  | s :: t =>
      if s.isOnSegment then
        (extractFirstOff t).map (fun p => (p.1, s :: p.2))
      else
        some (s, t)

/-- `ReferenceLineProvider::PrioritzeChangeLane`: splice the first segment
that is not on-segment to the front of the list; if there is none, leave the
list unchanged. -/
def prioritzeChangeLane (route_segments : List RouteSegments) :
    List RouteSegments :=
  match extractFirstOff route_segments with
  | none => route_segments
  | some (x, rest) => x :: rest

/-- `kReferenceLineDiffCheckResolution = 5.0` from
`IsReferenceLineSmoothValid`. -/
def kReferenceLineDiffCheckResolution : ℚ := 5

/-- Number of iterations of the sampling loop
`for (int s = 0.0; s < raw.Length(); s += 5.0)`: the loop visits
`s = 5 * k` for every natural `k` with `5 * k < raw.Length()`, i.e. for
`k < ⌈raw.Length() / 5⌉`. -/
def sampleCount (raw : ReferenceLine) : Nat :=
  (Int.ceil (raw.length / kReferenceLineDiffCheckResolution)).toNat

/-- `ReferenceLineProvider::IsReferenceLineSmoothValid`: sample the raw line
every 5.0 units of arclength below its length; fail as soon as the planar
distance between the raw point and the smoothed point at the same arclength
exceeds 5.0 (`diff > kReferenceLineDiffCheckResolution` returns false), so
the result is true exactly when every sampled distance is at most 5.0.
`dist` is `Vec2d::DistanceTo`. -/
def isReferenceLineSmoothValid (dist : Point → Point → ℚ)
    (raw smoothed : ReferenceLine) : Bool :=
  (List.range (sampleCount raw)).all (fun k =>
    decide (dist (raw.pointAt (kReferenceLineDiffCheckResolution * k))
       (smoothed.pointAt (kReferenceLineDiffCheckResolution * k)) ≤
      kReferenceLineDiffCheckResolution))

/-- `ReferenceLineProvider::SmoothReferenceLine`: when
`FLAGS_enable_smooth_reference_line` is off, return the raw line built from
the segment unchanged; otherwise run the configured smoother (its outcome on
this segment is the field `smoothResult`), fail when it fails, and fail when
the smoothed line does not pass `IsReferenceLineSmoothValid` against the raw
line. -/
def smoothReferenceLine (dist : Point → Point → ℚ)
    (enableSmoothReferenceLine : Bool) (lanes : RouteSegments) :
    Option ReferenceLine :=
  if ¬enableSmoothReferenceLine then some lanes.rawLine
  else
    match lanes.smoothResult with
    | none => none
    | some smoothed =>
        if isReferenceLineSmoothValid dist lanes.rawLine smoothed then
          some smoothed
        else none

/-- The body of the candidate loop of `CreateReferenceLineFromRouting` for
one candidate: skip the candidate when lane change is not allowed and it is
not the current segment, otherwise the candidate contributes iff
`SmoothReferenceLine` succeeds on it. -/
def usableLine (dist : Point → Point → ℚ)
    (is_allow_change_lane enableSmoothReferenceLine : Bool)
    (lanes : RouteSegments) : Option ReferenceLine :=
  if ¬is_allow_change_lane ∧ ¬lanes.isOnSegment then none
  else smoothReferenceLine dist enableSmoothReferenceLine lanes

/-- `ReferenceLineProvider::CreateReferenceLineFromRouting`.
`routeSegments` is the outcome of the external call
`pnc_map_->GetRouteSegments(...)` (`none` when it fails, which aborts the
run); `point` is the vehicle position snapshotted under the state lock
before any further step; `prioritizeChangeLaneFlag` is
`FLAGS_prioritize_change_lane`. On success the result carries the parallel
lists `reference_lines` and `segments` built by the loop; the second
component of the result is the `segment_history_` member after the run
(mutated only by `IsAllowChangeLane`). -/
def createReferenceLineFromRouting (dist : Point → Point → ℚ)
    (prioritizeChangeLaneFlag recklessChangeLane enableSmoothReferenceLine :
      Bool)
    (minLengthForLaneChange : ℚ) (point : Point)
    (routeSegments : Option (List RouteSegments)) (hist : SegmentHistory) :
    Option (List ReferenceLine × List RouteSegments) × SegmentHistory :=
  match routeSegments with
  | none => (none, hist)
  | some segs0 =>
    let route_segments :=
      if prioritizeChangeLaneFlag then prioritzeChangeLane segs0 else segs0
    let res := isAllowChangeLane dist recklessChangeLane
      minLengthForLaneChange point route_segments hist
    let pairs := route_segments.filterMap (fun lanes =>
      (usableLine dist res.1 enableSmoothReferenceLine lanes).map
        (fun line => (line, lanes)))
    if pairs.isEmpty then (none, res.2)
    else (some (pairs.map Prod.fst, pairs.map Prod.snd), res.2)

/-- The pipeline as §4.5 of the specification orders it: lane-change
eligibility is computed from the pre-prioritization candidate list, and only
the candidate loop runs over the prioritized list. Stated for comparison
with `createReferenceLineFromRouting`, which the source derives. -/
def createReferenceLineSpecOrder (dist : Point → Point → ℚ)
    (prioritizeChangeLaneFlag recklessChangeLane enableSmoothReferenceLine :
      Bool)
    (minLengthForLaneChange : ℚ) (point : Point)
    (routeSegments : Option (List RouteSegments)) (hist : SegmentHistory) :
    Option (List ReferenceLine × List RouteSegments) × SegmentHistory :=
  match routeSegments with
  | none => (none, hist)
  | some segs0 =>
    let res := isAllowChangeLane dist recklessChangeLane
      minLengthForLaneChange point segs0 hist
    let route_segments :=
      if prioritizeChangeLaneFlag then prioritzeChangeLane segs0 else segs0
    let pairs := route_segments.filterMap (fun lanes =>
      (usableLine dist res.1 enableSmoothReferenceLine lanes).map
        (fun line => (line, lanes)))
    if pairs.isEmpty then (none, res.2)
    else (some (pairs.map Prod.fst, pairs.map Prod.snd), res.2)

/-- The state a tick of `GenerateThread` touches: the published snapshot
(`reference_lines_` and `route_segments_`, `none` before any publication)
and the `segment_history_` member. -/
structure PubState where
  snapshot : Option (List ReferenceLine × List RouteSegments)
  hist : SegmentHistory

/-- Everything one tick of `GenerateThread` reads from outside the loop
body: the `has_routing_` flag, the flags, the vehicle position and the
outcome of the external `GetRouteSegments` call. -/
structure TickInput where
  hasRouting : Bool
  dist : Point → Point → ℚ
  prioritizeChangeLaneFlag : Bool
  recklessChangeLane : Bool
  enableSmoothReferenceLine : Bool
  minLengthForLaneChange : ℚ
  point : Point
  routeSegments : Option (List RouteSegments)

/-- One iteration of the `while (!is_stop_)` loop of `GenerateThread`:
skip the tick when no routing was received; run
`CreateReferenceLineFromRouting`; on failure only log and keep the snapshot;
on success replace the snapshot with the produced lists. -/
def generateTick (inp : TickInput) (st : PubState) : PubState :=
  if ¬inp.hasRouting then st
  else
    match createReferenceLineFromRouting inp.dist
        inp.prioritizeChangeLaneFlag inp.recklessChangeLane
        inp.enableSmoothReferenceLine inp.minLengthForLaneChange
        inp.point inp.routeSegments st.hist with
    | (none, hist) => ⟨st.snapshot, hist⟩
    | (some out, hist) => ⟨some out, hist⟩

/-- The provider right after `Init`/`Start`: nothing published yet and an
empty segment history. -/
def initialPubState : PubState := ⟨none, []⟩

/-- The threaded scheduler: the sequence of states reached by running
`GenerateThread` ticks from the initial state. -/
def runTicks (inputs : List TickInput) : PubState :=
  inputs.foldl (fun st inp => generateTick inp st) initialPubState

/-- The published-snapshot invariant: nothing was ever published, or the
published pair holds at least one reference line. -/
def snapshotInv (st : PubState) : Prop :=
  st.snapshot = none ∨ ∃ out, st.snapshot = some out ∧ 0 < out.1.length

/-- A concrete planar-distance function (the taxicab metric), used to
instantiate the external distance collaborator on concrete inputs. -/
def taxiDist (p q : Point) : ℚ :=
  |p.1 - q.1| + |p.2 - q.2|

/-- A degenerate concrete reference line for concrete segments. -/
def dummyLineW : ReferenceLine :=
  ⟨0, fun _ => (0, 0)⟩

/-- A concrete segment the vehicle is on; projection always yields
`(s, l) = (0, 1/10)`. -/
def segOnW : RouteSegments :=
  ⟨1, true, fun _ => some (0, 1/10), dummyLineW, none⟩

/-- A concrete segment the vehicle is not on. -/
def segOffW : RouteSegments :=
  ⟨2, false, fun _ => none, dummyLineW, none⟩

/-- A concrete on-segment whose projection always fails. -/
def segProjFailW : RouteSegments :=
  ⟨3, true, fun _ => none, dummyLineW, none⟩

/-- A concrete segment history holding one entry for segment id 1. -/
def hist0W : SegmentHistory :=
  [(1, ⟨1/10, (0, 0), 0⟩)]

/-- A concrete raw reference line of length 12 along the x axis. -/
def rawW : ReferenceLine :=
  ⟨12, fun s => (s, 0)⟩

/-- A concrete smoothed line displaced 6 units from `rawW` everywhere. -/
def smW : ReferenceLine :=
  ⟨12, fun s => (s, 6)⟩

theorem extractFirstOff_of_all_on (l : List RouteSegments)
    (h : ∀ s ∈ l, s.isOnSegment = true) : extractFirstOff l = none := by
  induction l with
  | nil => rfl
  | cons a t ih =>
      have ha := h a (List.mem_cons_self a t)
      simp [extractFirstOff, ha,
        ih (fun s hs => h s (List.mem_cons_of_mem a hs))]

theorem extractFirstOff_append (A : List RouteSegments) (x : RouteSegments)
    (B : List RouteSegments) (hA : ∀ s ∈ A, s.isOnSegment = true)
    (hx : x.isOnSegment = false) :
    extractFirstOff (A ++ x :: B) = some (x, A ++ B) := by
  induction A with
  | nil => simp [extractFirstOff, hx]
  | cons a t ih =>
      have ha := hA a (List.mem_cons_self a t)
      simp [extractFirstOff, ha,
        ih (fun s hs => hA s (List.mem_cons_of_mem a hs))]

theorem extractFirstOff_cases (l : List RouteSegments) :
    (extractFirstOff l = none ∧ ∀ s ∈ l, s.isOnSegment = true) ∨
    ∃ A x B, l = A ++ x :: B ∧ (∀ s ∈ A, s.isOnSegment = true) ∧
      x.isOnSegment = false ∧ extractFirstOff l = some (x, A ++ B) := by
  induction l with
  | nil => exact Or.inl ⟨rfl, by simp⟩
  | cons a t ih =>
      cases ha : a.isOnSegment with
      | false =>
          refine Or.inr ⟨[], a, t, by simp, by simp, ha, ?_⟩
          simp [extractFirstOff, ha]
      | true =>
          rcases ih with ⟨hn, hall⟩ | ⟨A, x, B, hdec, hAon, hxoff, hex⟩
          · refine Or.inl ⟨by simp [extractFirstOff, ha, hn], ?_⟩
            intro s hs
            rcases List.mem_cons.mp hs with h | h
            · exact h ▸ ha
            · exact hall s h
          · refine Or.inr ⟨a :: A, x, B, by simp [hdec], ?_, hxoff, ?_⟩
            · intro s hs
              rcases List.mem_cons.mp hs with h | h
              · exact h ▸ ha
              · exact hAon s h
            · simp [extractFirstOff, ha, hex]

theorem prioritzeChangeLane_perm (l : List RouteSegments) :
    (prioritzeChangeLane l).Perm l := by
  rcases extractFirstOff_cases l with ⟨hn, _⟩ | ⟨A, x, B, hdec, _, _, hex⟩
  · simp [prioritzeChangeLane, hn]
  · simp only [prioritzeChangeLane, hex]
    rw [hdec]
    exact List.perm_middle.symm

theorem prioritzeChangeLane_length (l : List RouteSegments) :
    (prioritzeChangeLane l).length = l.length :=
  (prioritzeChangeLane_perm l).length_eq

theorem prioritzeChangeLane_find_on (l : List RouteSegments) :
    (prioritzeChangeLane l).find? (fun s => s.isOnSegment) =
      l.find? (fun s => s.isOnSegment) := by
  rcases extractFirstOff_cases l with ⟨hn, _⟩ | ⟨A, x, B, hdec, hAon, hxoff, hex⟩
  · simp [prioritzeChangeLane, hn]
  · simp only [prioritzeChangeLane, hex]
    rw [hdec]
    cases A with
    | nil => simp
    | cons a t =>
        have ha := hAon a (List.mem_cons_self a t)
        simp [List.find?_cons, hxoff, ha]

theorem isAllowChangeLane_prioritze (dist : Point → Point → ℚ)
    (reckless : Bool) (minLen : ℚ) (point : Point)
    (l : List RouteSegments) (hist : SegmentHistory) :
    isAllowChangeLane dist reckless minLen point
        (prioritzeChangeLane l) hist =
      isAllowChangeLane dist reckless minLen point l hist := by
  unfold isAllowChangeLane
  rw [prioritzeChangeLane_find_on, prioritzeChangeLane_length]

theorem filterMap_pair_snd {α β : Type} (u : α → Option β) (l : List α) :
    (l.filterMap (fun a => (u a).map (fun b => (b, a)))).map Prod.snd =
      l.filter (fun a => (u a).isSome) := by
  induction l with
  | nil => rfl
  | cons a t ih =>
      cases hu : u a with
      | none => simp [List.filterMap_cons, List.filter_cons, hu, ih]
      | some b => simp [List.filterMap_cons, List.filter_cons, hu, ih]

theorem filterMap_pair_fst {α β : Type} (u : α → Option β) (l : List α) :
    (l.filterMap (fun a => (u a).map (fun b => (b, a)))).map Prod.fst =
      l.filterMap u := by
  induction l with
  | nil => rfl
  | cons a t ih =>
      cases hu : u a with
      | none => simp [List.filterMap_cons, hu, ih]
      | some b => simp [List.filterMap_cons, hu, ih]

theorem createSome_eq (dist : Point → Point → ℚ)
    (prio reckless ensm : Bool) (minLen : ℚ) (point : Point)
    (segs0 : List RouteSegments) (hist : SegmentHistory) :
    createReferenceLineFromRouting dist prio reckless ensm minLen point
        (some segs0) hist =
      (let segs := if prio then prioritzeChangeLane segs0 else segs0
       let res := isAllowChangeLane dist reckless minLen point segs hist
       ((if (segs.filter
             (fun lanes => (usableLine dist res.1 ensm lanes).isSome)).isEmpty
         then none
         else some (segs.filterMap (usableLine dist res.1 ensm),
           segs.filter
             (fun lanes => (usableLine dist res.1 ensm lanes).isSome))),
       res.2)) := by
  have key : ∀ (allow : Bool) (segs : List RouteSegments)
      (res2 : SegmentHistory),
      (if (segs.filterMap (fun lanes =>
          (usableLine dist allow ensm lanes).map
            (fun line => (line, lanes)))).isEmpty
       then ((none : Option (List ReferenceLine × List RouteSegments)), res2)
       else (some ((segs.filterMap (fun lanes =>
           (usableLine dist allow ensm lanes).map
             (fun line => (line, lanes)))).map Prod.fst,
         (segs.filterMap (fun lanes =>
           (usableLine dist allow ensm lanes).map
             (fun line => (line, lanes)))).map Prod.snd), res2)) =
      ((if (segs.filter
           (fun lanes => (usableLine dist allow ensm lanes).isSome)).isEmpty
       then none
       else some (segs.filterMap (usableLine dist allow ensm),
         segs.filter
           (fun lanes => (usableLine dist allow ensm lanes).isSome))),
       res2) := by
    intro allow segs res2
    have hsnd := filterMap_pair_snd (usableLine dist allow ensm) segs
    have hfst := filterMap_pair_fst (usableLine dist allow ensm) segs
    cases hp : segs.filterMap (fun lanes =>
        (usableLine dist allow ensm lanes).map
          (fun line => (line, lanes))) with
    | nil =>
        have hfil : segs.filter
            (fun lanes => (usableLine dist allow ensm lanes).isSome) = [] := by
          rw [← hsnd, hp]
          rfl
        simp [hfil]
    | cons p ps =>
        have hfil : (segs.filter
            (fun lanes =>
              (usableLine dist allow ensm lanes).isSome)).isEmpty = false := by
          rw [← hsnd, hp]
          rfl
        simp only [hp, List.isEmpty_cons, Bool.false_eq_true, if_false, hfil]
        rw [← hp, hsnd, hfst]
  cases prio with
  | false => exact key _ segs0 _
  | true => exact key _ (prioritzeChangeLane segs0) _

theorem createReferenceLineFromRouting_success_pos
    (dist : Point → Point → ℚ) (prio reckless ensm : Bool) (minLen : ℚ)
    (point : Point) (rs : Option (List RouteSegments))
    (hist : SegmentHistory) (lines : List ReferenceLine)
    (outSegs : List RouteSegments)
    (h : (createReferenceLineFromRouting dist prio reckless ensm minLen
        point rs hist).1 = some (lines, outSegs)) :
    0 < lines.length := by
  cases rs with
  | none => simp [createReferenceLineFromRouting] at h
  | some segs0 =>
      rw [createSome_eq] at h
      simp only at h
      set segs := if prio then prioritzeChangeLane segs0 else segs0 with hsegs
      set allow := (isAllowChangeLane dist reckless minLen point
        segs hist).1 with hallow
      by_cases hfil : (segs.filter
          (fun lanes => (usableLine dist allow ensm lanes).isSome)).isEmpty
      · rw [if_pos hfil] at h
        exact absurd h (by simp)
      · rw [if_neg hfil] at h
        have hlines : lines = segs.filterMap (usableLine dist allow ensm) :=
          ((Prod.mk.injEq _ _ _ _).mp (Option.some.inj h).symm).1
        have hlen : (segs.filterMap (usableLine dist allow ensm)).length =
            (segs.filter
              (fun lanes => (usableLine dist allow ensm lanes).isSome)).length := by
          rw [← filterMap_pair_fst (usableLine dist allow ensm) segs,
            ← filterMap_pair_snd (usableLine dist allow ensm) segs]
          simp
        rw [hlines, hlen]
        have hne : segs.filter
            (fun lanes => (usableLine dist allow ensm lanes).isSome) ≠ [] :=
          fun hnil => hfil (by rw [hnil]; rfl)
        exact List.length_pos.mpr hne

theorem generateTick_inv (inp : TickInput) (st : PubState)
    (h : snapshotInv st) : snapshotInv (generateTick inp st) := by
  by_cases hr : inp.hasRouting
  · rw [generateTick, if_neg (by simp [hr])]
    rcases hc : createReferenceLineFromRouting inp.dist
        inp.prioritizeChangeLaneFlag inp.recklessChangeLane
        inp.enableSmoothReferenceLine inp.minLengthForLaneChange
        inp.point inp.routeSegments st.hist with ⟨fst, hist2⟩
    cases fst with
    | none => exact h
    | some out =>
        right
        refine ⟨out, rfl, ?_⟩
        rcases out with ⟨lines, osegs⟩
        exact createReferenceLineFromRouting_success_pos inp.dist
          inp.prioritizeChangeLaneFlag inp.recklessChangeLane
          inp.enableSmoothReferenceLine inp.minLengthForLaneChange
          inp.point inp.routeSegments st.hist lines osegs (by rw [hc])
  · rw [generateTick, if_pos (by simp [hr])]
    exact h

theorem lt_sampleCount_iff (raw : ReferenceLine) (k : Nat) :
    k < sampleCount raw ↔
      (kReferenceLineDiffCheckResolution * (k : ℚ)) < raw.length := by
  unfold sampleCount
  rw [Int.lt_toNat, Int.lt_ceil,
    lt_div_iff₀ (by norm_num [kReferenceLineDiffCheckResolution] :
      (0 : ℚ) < kReferenceLineDiffCheckResolution)]
  push_cast
  constructor <;> intro h <;> linarith

theorem isReferenceLineSmoothValid_eq_true_iff (dist : Point → Point → ℚ)
    (raw smoothed : ReferenceLine) :
    isReferenceLineSmoothValid dist raw smoothed = true ↔
      ∀ k : Nat, (kReferenceLineDiffCheckResolution * (k : ℚ)) < raw.length →
        dist (raw.pointAt (kReferenceLineDiffCheckResolution * k))
            (smoothed.pointAt (kReferenceLineDiffCheckResolution * k)) ≤
          kReferenceLineDiffCheckResolution := by
  unfold isReferenceLineSmoothValid
  rw [List.all_eq_true]
  constructor
  · intro h k hk
    exact of_decide_eq_true
      (h k (List.mem_range.mpr ((lt_sampleCount_iff raw k).mpr hk)))
  · intro h k hk
    exact decide_eq_true
      (h k ((lt_sampleCount_iff raw k).mp (List.mem_range.mp hk)))

/-- C1: a call to `IsAllowChangeLane` with reckless mode off, at least two
candidate segments, a forward segment found, a successful projection and an
existing history entry for the forward segment id updates the entry to
`min_l = min(previous, |l|)`, `last_point = position` and
`accumulate_s = previous + dist(last_position, position)`, and returns true
iff `min_l < 0.25` and `accumulate_s ≥ 0.6 × min_length_for_lane_change`,
with the distance boundary inclusive. -/
theorem isAllowChangeLane_subsequent_observation
    (dist : Point → Point → ℚ) (minLen : ℚ) (point : Point)
    (segs : List RouteSegments) (hist : SegmentHistory)
    (fs : RouteSegments) (s l : ℚ) (entry : SegmentHistoryItem)
    (hlen : 1 < segs.length)
    (hfind : segs.find? (fun sg => sg.isOnSegment) = some fs)
    (hproj : fs.getProjection point = some (s, l))
    (hhist : histFind hist fs.id = some entry) :
    isAllowChangeLane dist false minLen point segs hist =
      (decide (min entry.min_l |l| < kChangeLaneMinL ∧
         entry.accumulate_s + dist entry.last_point point ≥
           kChangeLaneMinLengthFactor * minLen),
       histUpdate hist fs.id
         ⟨min entry.min_l |l|, point,
           entry.accumulate_s + dist entry.last_point point⟩) := by
  simp only [isAllowChangeLane, Bool.false_eq_true, if_false,
    Nat.not_le.mpr hlen, hfind, hproj, hhist]

/-- Witness for C1: on a concrete two-segment list with an existing history
entry of `min_l = 1/10` and a move of planar distance 1, the entry is
updated as stated and the call returns true
(`1/10 < 1/4` and `0 + 1 ≥ 0.6 × 1`). -/
theorem isAllowChangeLane_subsequent_observation_witness :
    (1 < ([segOnW, segOffW] : List RouteSegments).length) ∧
    ([segOnW, segOffW].find? (fun sg => sg.isOnSegment) = some segOnW) ∧
    (segOnW.getProjection (1, 0) = some (0, 1/10)) ∧
    (histFind hist0W segOnW.id = some ⟨1/10, (0, 0), 0⟩) ∧
    isAllowChangeLane taxiDist false 1 (1, 0) [segOnW, segOffW] hist0W =
      (decide (min (1/10 : ℚ) |(1/10 : ℚ)| < kChangeLaneMinL ∧
         (0 : ℚ) + taxiDist (0, 0) (1, 0) ≥ kChangeLaneMinLengthFactor * 1),
       histUpdate hist0W segOnW.id
         ⟨min (1/10 : ℚ) |(1/10 : ℚ)|, (1, 0),
           (0 : ℚ) + taxiDist (0, 0) (1, 0)⟩) :=
  ⟨by decide, rfl, rfl, rfl,
   isAllowChangeLane_subsequent_observation taxiDist 1 (1, 0)
     [segOnW, segOffW] hist0W segOnW 0 (1/10) ⟨1/10, (0, 0), 0⟩
     (by decide) rfl rfl rfl⟩

/-- C7: `IsAllowChangeLane` returns true unconditionally when
`FLAGS_reckless_change_lane` is set, and returns false for every candidate
list of size at most 1 when reckless mode is off. -/
theorem isAllowChangeLane_reckless_or_short (dist : Point → Point → ℚ)
    (minLen : ℚ) (point : Point) (segs : List RouteSegments)
    (hist : SegmentHistory) :
    (isAllowChangeLane dist true minLen point segs hist).1 = true ∧
    (segs.length ≤ 1 →
      (isAllowChangeLane dist false minLen point segs hist).1 = false) := by
  constructor
  · simp [isAllowChangeLane]
  · intro h
    simp [isAllowChangeLane, h]

/-- Witness for C7: on the empty candidate list, reckless mode yields true
and non-reckless mode yields false. -/
theorem isAllowChangeLane_reckless_or_short_witness :
    (isAllowChangeLane taxiDist true 1 (0, 0) [] []).1 = true ∧
    (([] : List RouteSegments).length ≤ 1) ∧
    (isAllowChangeLane taxiDist false 1 (0, 0) [] []).1 = false :=
  ⟨(isAllowChangeLane_reckless_or_short taxiDist 1 (0, 0) [] []).1,
   by decide,
   (isAllowChangeLane_reckless_or_short taxiDist 1 (0, 0) [] []).2
     (by decide)⟩

/-- C8: a call to `IsAllowChangeLane` that reaches the history lookup
(reckless off, at least two segments, forward segment found, projection
succeeded) with the forward segment id absent from history creates the
entry `⟨|l|, position, 0⟩` and returns false. -/
theorem isAllowChangeLane_first_observation (dist : Point → Point → ℚ)
    (minLen : ℚ) (point : Point) (segs : List RouteSegments)
    (hist : SegmentHistory) (fs : RouteSegments) (s l : ℚ)
    (hlen : 1 < segs.length)
    (hfind : segs.find? (fun sg => sg.isOnSegment) = some fs)
    (hproj : fs.getProjection point = some (s, l))
    (hhist : histFind hist fs.id = none) :
    isAllowChangeLane dist false minLen point segs hist =
      (false, histInsert hist fs.id ⟨|l|, point, 0⟩) := by
  simp only [isAllowChangeLane, Bool.false_eq_true, if_false,
    Nat.not_le.mpr hlen, hfind, hproj, hhist]

/-- Witness for C8: first observation of segment id 1 on a concrete
two-segment list seeds the history with `⟨|1/10|, position, 0⟩` and
returns false. -/
theorem isAllowChangeLane_first_observation_witness :
    (1 < ([segOnW, segOffW] : List RouteSegments).length) ∧
    ([segOnW, segOffW].find? (fun sg => sg.isOnSegment) = some segOnW) ∧
    (segOnW.getProjection (1, 0) = some (0, 1/10)) ∧
    (histFind [] segOnW.id = none) ∧
    isAllowChangeLane taxiDist false 1 (1, 0) [segOnW, segOffW] [] =
      (false, histInsert [] segOnW.id ⟨|(1/10 : ℚ)|, (1, 0), 0⟩) :=
  ⟨by decide, rfl, rfl, rfl,
   isAllowChangeLane_first_observation taxiDist 1 (1, 0) [segOnW, segOffW]
     [] segOnW 0 (1/10) (by decide) rfl rfl rfl⟩

/-- C10: when the projection of the position onto the forward segment
fails, `IsAllowChangeLane` returns false and the segment history is
returned completely unchanged: no entry created, no entry updated. -/
theorem isAllowChangeLane_projection_failure_frame (dist : Point → Point → ℚ)
    (minLen : ℚ) (point : Point) (segs : List RouteSegments)
    (hist : SegmentHistory) (fs : RouteSegments)
    (hlen : 1 < segs.length)
    (hfind : segs.find? (fun sg => sg.isOnSegment) = some fs)
    (hproj : fs.getProjection point = none) :
    isAllowChangeLane dist false minLen point segs hist = (false, hist) := by
  simp only [isAllowChangeLane, Bool.false_eq_true, if_false,
    Nat.not_le.mpr hlen, hfind, hproj]

/-- Witness for C10: a concrete forward segment whose projection fails
leaves a concrete non-empty history untouched and yields false. -/
theorem isAllowChangeLane_projection_failure_frame_witness :
    (1 < ([segProjFailW, segOffW] : List RouteSegments).length) ∧
    ([segProjFailW, segOffW].find? (fun sg => sg.isOnSegment) =
      some segProjFailW) ∧
    (segProjFailW.getProjection (1, 0) = none) ∧
    isAllowChangeLane taxiDist false 1 (1, 0) [segProjFailW, segOffW]
        hist0W =
      (false, hist0W) :=
  ⟨by decide, rfl, rfl,
   isAllowChangeLane_projection_failure_frame taxiDist 1 (1, 0)
     [segProjFailW, segOffW] hist0W segProjFailW (by decide) rfl rfl⟩

/-- C2: every run of `CreateReferenceLineFromRouting` computes lane-change
eligibility exactly once (both the source pipeline and the spec-ordered
pipeline contain a single `IsAllowChangeLane` call), with the position
snapshotted before prioritization, and its outcome — both the returned
boolean and the history mutation — is exactly the outcome of
`IsAllowChangeLane` on the pre-prioritization candidate list: the source
pipeline equals the pipeline that evaluates eligibility on the candidate
list as it was before the prioritization step reordered it. -/
theorem createReferenceLine_eligibility_prePrioritization
    (dist : Point → Point → ℚ) (prio reckless ensm : Bool) (minLen : ℚ)
    (point : Point) (rs : Option (List RouteSegments))
    (hist : SegmentHistory) :
    createReferenceLineFromRouting dist prio reckless ensm minLen point
        rs hist =
      createReferenceLineSpecOrder dist prio reckless ensm minLen point
        rs hist := by
  cases rs with
  | none => rfl
  | some segs0 =>
      unfold createReferenceLineFromRouting createReferenceLineSpecOrder
      cases prio with
      | false => rfl
      | true => simp only [if_true, isAllowChangeLane_prioritze]

/-- C3: `IsReferenceLineSmoothValid` returns true iff at every sampled
arclength `5 * k` strictly below the raw length the planar distance between
the raw and smoothed points is at most 5.0; consequently a smoothed line
equal to the raw line always validates, and a smoothed line farther than
5.0 at some sample always fails. -/
theorem isReferenceLineSmoothValid_spec (dist : Point → Point → ℚ)
    (raw smoothed : ReferenceLine) :
    (isReferenceLineSmoothValid dist raw smoothed = true ↔
      ∀ k : Nat, (kReferenceLineDiffCheckResolution * (k : ℚ)) < raw.length →
        dist (raw.pointAt (kReferenceLineDiffCheckResolution * k))
            (smoothed.pointAt (kReferenceLineDiffCheckResolution * k)) ≤
          kReferenceLineDiffCheckResolution) ∧
    ((∀ p : Point, dist p p = 0) →
      isReferenceLineSmoothValid dist raw raw = true) ∧
    (∀ k : Nat, (kReferenceLineDiffCheckResolution * (k : ℚ)) < raw.length →
      kReferenceLineDiffCheckResolution <
        dist (raw.pointAt (kReferenceLineDiffCheckResolution * k))
          (smoothed.pointAt (kReferenceLineDiffCheckResolution * k)) →
      isReferenceLineSmoothValid dist raw smoothed = false) := by
  refine ⟨isReferenceLineSmoothValid_eq_true_iff dist raw smoothed, ?_, ?_⟩
  · intro h0
    rw [isReferenceLineSmoothValid_eq_true_iff]
    intro k _
    rw [h0]
    norm_num [kReferenceLineDiffCheckResolution]
  · intro k hk hgt
    cases hval : isReferenceLineSmoothValid dist raw smoothed with
    | false => rfl
    | true =>
        have hle := (isReferenceLineSmoothValid_eq_true_iff dist raw
          smoothed).mp hval k hk
        linarith

/-- Witness for C3: under the taxicab planar distance, a raw line of length
12 validates against itself, and fails against a copy displaced by 6 units
(more than the 5.0 threshold) at sample 0. -/
theorem isReferenceLineSmoothValid_spec_witness :
    isReferenceLineSmoothValid taxiDist rawW rawW = true ∧
    isReferenceLineSmoothValid taxiDist rawW smW = false :=
  ⟨(isReferenceLineSmoothValid_spec taxiDist rawW rawW).2.1
     (fun p => by simp [taxiDist]),
   (isReferenceLineSmoothValid_spec taxiDist rawW smW).2.2 0
     (by norm_num [kReferenceLineDiffCheckResolution, rawW])
     (by norm_num [kReferenceLineDiffCheckResolution, taxiDist, rawW, smW])⟩

/-- C4: `PrioritzeChangeLane` preserves the multiset of segments; when
every segment is the current segment the list is unchanged; and whenever
the list splits as `A ++ x :: B` with every segment of `A` current and `x`
not current, the result is `x :: (A ++ B)` — the first non-current segment
moves to the front and the relative order of all other elements is kept. -/
theorem prioritzeChangeLane_spec (l : List RouteSegments) :
    ((prioritzeChangeLane l : Multiset RouteSegments) = (l : Multiset RouteSegments)) ∧
    ((∀ s ∈ l, s.isOnSegment = true) → prioritzeChangeLane l = l) ∧
    (∀ A x B, l = A ++ x :: B → (∀ s ∈ A, s.isOnSegment = true) →
      x.isOnSegment = false → prioritzeChangeLane l = x :: (A ++ B)) := by
  refine ⟨Multiset.coe_eq_coe.mpr (prioritzeChangeLane_perm l), ?_, ?_⟩
  · intro h
    simp [prioritzeChangeLane, extractFirstOff_of_all_on l h]
  · intro A x B hdec hA hx
    rw [hdec]
    simp [prioritzeChangeLane, extractFirstOff_append A x B hA hx]

/-- Witness for C4: on the concrete list `[segOnW, segOffW]` the multiset
is preserved and the first non-current segment `segOffW` moves to the
front; the all-current singleton list `[segOnW]` is unchanged. -/
theorem prioritzeChangeLane_spec_witness :
    ((prioritzeChangeLane [segOnW, segOffW] : Multiset RouteSegments) =
      ([segOnW, segOffW] : Multiset RouteSegments)) ∧
    (prioritzeChangeLane [segOnW] = [segOnW]) ∧
    (prioritzeChangeLane [segOnW, segOffW] = segOffW :: ([segOnW] ++ [])) :=
  ⟨(prioritzeChangeLane_spec [segOnW, segOffW]).1,
   (prioritzeChangeLane_spec [segOnW]).2.1
     (by intro s hs; rw [List.mem_singleton.mp hs]; rfl),
   (prioritzeChangeLane_spec [segOnW, segOffW]).2.2 [segOnW] segOffW []
     rfl (by intro s hs; rw [List.mem_singleton.mp hs]; rfl) rfl⟩

/-- C5: a run of `CreateReferenceLineFromRouting` that successfully
retrieved its candidate list fails iff no candidate yields a usable line
(skipped candidates and candidates whose smoothing or validation fails
contribute nothing but never abort the run), and a successful run returns
exactly the usable candidates and their lines, in candidate order. -/
theorem createReferenceLine_fails_iff_no_usable (dist : Point → Point → ℚ)
    (prio reckless ensm : Bool) (minLen : ℚ) (point : Point)
    (segs0 : List RouteSegments) (hist : SegmentHistory) :
    createReferenceLineFromRouting dist prio reckless ensm minLen point
        (some segs0) hist =
      (let segs := if prio then prioritzeChangeLane segs0 else segs0
       let res := isAllowChangeLane dist reckless minLen point segs hist
       ((if (segs.filter
             (fun lanes => (usableLine dist res.1 ensm lanes).isSome)).isEmpty
         then none
         else some (segs.filterMap (usableLine dist res.1 ensm),
           segs.filter
             (fun lanes => (usableLine dist res.1 ensm lanes).isSome))),
       res.2)) :=
  createSome_eq dist prio reckless ensm minLen point segs0 hist

/-- C6: `UpdateRoutingResponse` reports failure and leaves both the segment
history and the has-routing flag unchanged when the map collaborator
rejects the routing, and on acceptance reports success, clears the entire
history exactly when the routing differs from the previous one, and marks
routing as received. -/
theorem updateRoutingResponse_spec (sameRouting : Bool)
    (hist : SegmentHistory) (hasRouting : Bool) :
    updateRoutingResponse false sameRouting hist hasRouting =
      (false, hist, hasRouting) ∧
    updateRoutingResponse true sameRouting hist hasRouting =
      (true, (if sameRouting then hist else []), true) := by
  cases sameRouting <;> simp [updateRoutingResponse]

/-- C9: every state reachable by the threaded scheduler from the initial
state has a published snapshot that is either absent (nothing ever
published) or holds at least one reference line: failed ticks never
publish, and a successful run always carries a non-empty line list. -/
theorem runTicks_snapshotInv (inputs : List TickInput) :
    snapshotInv (runTicks inputs) := by
  have general : ∀ (rest : List TickInput) (st : PubState), snapshotInv st →
      snapshotInv (rest.foldl (fun st inp => generateTick inp st) st) := by
    intro rest
    induction rest with
    | nil => intro st h; exact h
    | cons a t ih => intro st h; exact ih _ (generateTick_inv a st h)
  exact general inputs initialPubState (Or.inl rfl)
